import Mathlib

/-!
Verification of the credential store and OAuth bridge of
`social-insights-studio` (`src/server/store.js`, `src/server/index.js`).

The JavaScript source is shallowly embedded: machine state (the persisted
token map, the in-memory state map, the lock file) is passed explicitly,
`Date.now()` becomes a `now` argument, randomness (`crypto.randomBytes`)
becomes an explicit nonce argument, and JavaScript truthiness on the
dynamic record fields is modelled field by field (`null`/`undefined`,
`0`, and `""` are falsy).
-/

set_option autoImplicit false

namespace Store

/-- Ciphertext envelope `{iv, tag, data}` as produced by `encryptValue` in
`src/server/store.js` (the base64 transport encoding is elided: `iv` and
`tag` are byte strings, `data` is the ciphertext). -/
structure Envelope where
  iv : List Nat
  tag : List Nat
  data : String
deriving DecidableEq, Repr

/-- Model of the `aes-256-gcm` primitive from Node's `crypto` module: an
authenticated encryption scheme over a key and a nonce producing a
ciphertext and an authentication tag, whose decryption fails (returns
`none`) when the tag does not verify.  `enc key iv msg` returns
`(ciphertext, tag)`; `dec key iv tag ciphertext` returns the plaintext or
`none`. -/
structure AEAD where
  enc : List Nat → List Nat → String → String × List Nat
  dec : List Nat → List Nat → List Nat → String → Option String

/-- A JavaScript value held in a token field of a persisted record: either
a plaintext string (legacy records) or a ciphertext envelope object. -/
inductive JVal where
  | jstr (s : String)
  | jenv (e : Envelope)
deriving DecidableEq, Repr

/-- `encryptValue(value, key)` from `src/server/store.js` line 80.  The
random nonce `crypto.randomBytes(12)` is made an explicit argument `iv`. -/
def encryptValue (A : AEAD) (iv : List Nat) (value : String) (key : List Nat) : Envelope :=
  let p := A.enc key iv value
  { iv := iv, tag := p.2, data := p.1 }

/-- `decryptValue(payload, key)` from `src/server/store.js` line 93.  A
missing (`null`/`undefined`) payload or a non-object payload returns
`null` up front; inside the `try` block every failure (tag verification,
malformed fields) is caught and mapped to `null`, so the function is total
and never throws. -/
def decryptValue (A : AEAD) (payload : Option JVal) (key : List Nat) : Option String :=
  match payload with
  | none => none
  | some (JVal.jstr _) => none
  | some (JVal.jenv e) =>
    match A.dec key e.iv e.tag e.data with
    | none => none
    | some plain => some plain

/-- Checksum used by the concrete authenticated-encryption instance below:
a value depending on key, nonce and message. -/
def checksumTag (key iv : List Nat) (msg : String) : List Nat :=
  [key.sum + iv.sum + msg.length]

/-- A small concrete `AEAD` instance used to exercise the generic theorems
on explicit inputs: the ciphertext is the message and the tag is a
checksum over key, nonce and message, verified on decryption. -/
def toyAEAD : AEAD where
  enc := fun key iv msg => (msg, checksumTag key iv msg)
  dec := fun key iv tag data => if tag = checksumTag key iv data then some data else none

/-! ### EphemeralRegistry (`StateStore`) -/

/-- An entry of the in-memory `StateStore` map: the saved payload together
with the absolute expiry instant attached by `save`. -/
structure SEntry (α : Type) where
  data : α
  expiresAt : Int
deriving DecidableEq, Repr

/-- Association-list model of a JavaScript `Map` / object keyed by
strings: the value bound to the first occurrence of the key. -/
def lookupKey {β : Type} (key : String) : List (String × β) → Option β
  | [] => none
  | p :: rest => if p.1 = key then some p.2 else lookupKey key rest

/-- `Map.delete` / `delete obj[key]`: removes every binding of `key`. -/
def eraseKey {β : Type} (key : String) (l : List (String × β)) : List (String × β) :=
  l.filter fun p => p.1 ≠ key

/-- `Map.set` / `obj[key] = v`. -/
def setKey {β : Type} (key : String) (v : β) (l : List (String × β)) : List (String × β) :=
  (key, v) :: eraseKey key l

/-- `StateStore.save` (`src/server/store.js` line 382): stores the payload
with `expiresAt = Date.now() + this.ttlMs`. -/
def StateStore.save {α : Type} (ttlMs now : Int) (store : List (String × SEntry α))
    (state : String) (d : α) : List (String × SEntry α) :=
  setKey state { data := d, expiresAt := now + ttlMs } store

/-- `StateStore.consume` (`src/server/store.js` line 386): get-and-delete.
Returns `null` when the key is absent; when present the entry is deleted
first and `null` is returned if it had already expired.  The result is the
returned entry (if any) paired with the store after the call. -/
def StateStore.consume {α : Type} (now : Int) (store : List (String × SEntry α))
    (state : String) : Option (SEntry α) × List (String × SEntry α) :=
  match lookupKey state store with
  | none => (none, store)
  | some entry =>
    let store' := eraseKey state store
    if entry.expiresAt ≤ now then (none, store') else (some entry, store')

/-! ### Token validity checks -/

/-- `TOKEN_REFRESH_BUFFER_MS` (`src/server/store.js` line 55). -/
def TOKEN_REFRESH_BUFFER_MS : Int := 5 * 60 * 1000

/-- The decrypted camelCase token record returned by
`FileTokenStore.getConnectorToken` and consumed by the orchestration layer
in `src/server/index.js`. -/
structure TokenRec where
  accessToken : String
  refreshToken : String
  expiresAt : Option Int
  refreshExpiresAt : Option Int
  scopes : Option String
  createdAt : Option Int
  updatedAt : Option Int
  openId : Option String
deriving DecidableEq, Repr

/-- `FileTokenStore.isAccessTokenValid` (`src/server/store.js` line 365):
`tokenData.expiresAt && Date.now() < tokenData.expiresAt -
TOKEN_REFRESH_BUFFER_MS`, where a `null`/`undefined`/`0` expiry is falsy. -/
def isAccessTokenValid (now : Int) (tokenData : TokenRec) : Bool :=
  match tokenData.expiresAt with
  | none => false
  | some e => e ≠ 0 && now < e - TOKEN_REFRESH_BUFFER_MS

/-- `FileTokenStore.isRefreshTokenValid` (`src/server/store.js` line 369):
the same buffered check against `refreshExpiresAt`. -/
def isRefreshTokenValid (now : Int) (tokenData : TokenRec) : Bool :=
  match tokenData.refreshExpiresAt with
  | none => false
  | some e => e ≠ 0 && now < e - TOKEN_REFRESH_BUFFER_MS

/-! ### Persisted store entries (`FileTokenStore`) -/

/-- A persisted store entry (a JSON object in `data.tokens`), carrying both
the legacy camelCase fields and the current snake_case fields, any of which
may be absent (`none` is JavaScript `null`/`undefined`). -/
structure JEntry where
  accessToken : Option JVal := none
  refreshToken : Option JVal := none
  access_token : Option JVal := none
  refresh_token : Option JVal := none
  expiresAt : Option Int := none
  expires_at : Option Int := none
  refreshExpiresAt : Option Int := none
  refresh_expires_at : Option Int := none
  scope : Option String := none
  scopes : Option String := none
  createdAt : Option Int := none
  created_at : Option Int := none
  updatedAt : Option Int := none
  updated_at : Option Int := none
  openId : Option String := none
  open_id : Option String := none
deriving DecidableEq, Repr

/-- JavaScript truthiness of a token-field value: `null`/`undefined` and
`""` are falsy, objects are truthy. -/
def jvalTruthy : Option JVal → Bool
  | none => false
  | some (JVal.jstr s) => s ≠ ""
  | some (JVal.jenv _) => true

/-- JavaScript `a || b` on token-field values. -/
def jvalOr (a b : Option JVal) : Option JVal :=
  if jvalTruthy a then a else b

/-- `String(value)` as applied by `encryptValue` to its argument: a string
is unchanged, an object stringifies to `"[object Object]"`. -/
def jvalToStr : Option JVal → String
  | some (JVal.jstr s) => s
  | some (JVal.jenv _) => "[object Object]"
  | none => "undefined"

/-- JavaScript truthiness of a number-or-null field: `null`/`undefined`
and `0` are falsy. -/
def numTruthy : Option Int → Bool
  | none => false
  | some v => v ≠ 0

/-- JavaScript `a || b || fallback` on numeric fields. -/
def numOr (a b : Option Int) (fallback : Int) : Int :=
  if numTruthy a then a.getD 0 else if numTruthy b then b.getD 0 else fallback

/-- JavaScript truthiness of a string-or-null field. -/
def strTruthy : Option String → Bool
  | none => false
  | some s => s ≠ ""

/-- JavaScript `a || b || null` on string fields. -/
def strOr (a b : Option String) : Option String :=
  if strTruthy a then a else if strTruthy b then b else none

/-- JavaScript `x || null` on numeric fields. -/
def orNullNum (a : Option Int) : Option Int :=
  if numTruthy a then a else none

/-- JavaScript `x || null` on string fields. -/
def orNullStr (a : Option String) : Option String :=
  if strTruthy a then a else none

/-- `FileTokenStore.needsMigration` (`src/server/store.js` line 230): some
entry is truthy and carries a legacy camelCase `accessToken` or
`refreshToken` field. -/
def needsMigration (tokens : List (String × Option JEntry)) : Bool :=
  tokens.any fun p =>
    match p.2 with
    | none => false
    | some entry => jvalTruthy entry.accessToken || jvalTruthy entry.refreshToken

/-- The per-record body of `FileTokenStore.migrateData`
(`src/server/store.js` line 242): `null` entries and entries lacking either
token are skipped; otherwise both tokens are re-encrypted and the metadata
is normalised to snake_case.  `encF` stands for `encryptValue` applied
with the store's key and a fresh random nonce per call. -/
def migrateEntry (encF : String → Envelope) (now : Int) :
    String × Option JEntry → Option (String × Option JEntry)
  | (_, none) => none
  | (token, some entry) =>
    let a := jvalOr entry.accessToken entry.access_token
    let r := jvalOr entry.refreshToken entry.refresh_token
    if jvalTruthy a && jvalTruthy r then
      some (token, some
        { access_token := some (JVal.jenv (encF (jvalToStr a)))
          refresh_token := some (JVal.jenv (encF (jvalToStr r)))
          expires_at := some (numOr entry.expiresAt entry.expires_at now)
          refresh_expires_at := some (numOr entry.refreshExpiresAt entry.refresh_expires_at now)
          scopes := strOr entry.scope entry.scopes
          created_at := some (numOr entry.createdAt entry.created_at now)
          updated_at := some (numOr entry.updatedAt entry.updated_at now)
          open_id := strOr entry.openId entry.open_id })
    else none

/-- `FileTokenStore.migrateData` (`src/server/store.js` line 237). -/
def migrateData (encF : String → Envelope) (now : Int)
    (tokens : List (String × Option JEntry)) : List (String × Option JEntry) :=
  tokens.filterMap (migrateEntry encF now)

/-- The migration step performed at the top of every store operation: the
map is rewritten in the encrypted shape when any legacy record is found. -/
def postMigration (encF : String → Envelope) (now : Int)
    (tokens : List (String × Option JEntry)) : List (String × Option JEntry) :=
  if needsMigration tokens then migrateData encF now tokens else tokens

/-- The truthy strict comparison `entry.f && entry.f < bound` used by
`pruneTokens` on numeric fields. -/
def truthyLtB (x : Option Int) (bound : Int) : Bool :=
  match x with
  | none => false
  | some v => v ≠ 0 && v < bound

/-- `FileTokenStore.pruneTokens` (`src/server/store.js` line 264): drops
`null` entries, and drops an entry exactly when both its refresh expiry is
a truthy number in the past and its `updated_at` is a truthy number older
than the retention cutoff `now - pruneAfterDays` days. -/
def pruneTokens (pruneAfterDays now : Int) (tokens : List (String × Option JEntry)) :
    List (String × Option JEntry) :=
  let cutoff := now - pruneAfterDays * 24 * 60 * 60 * 1000
  tokens.filterMap fun p =>
    match p.2 with
    | none => none
    | some entry =>
      if truthyLtB entry.refresh_expires_at now && truthyLtB entry.updated_at cutoff
      then none else some p

/-- The camelCase token data handed to `saveConnectorToken` by the
orchestration layer (`buildTokenRecord` output). -/
structure TokenData where
  accessToken : String
  refreshToken : String
  expiresAt : Option Int := none
  refreshExpiresAt : Option Int := none
  scopes : Option String := none
  openId : Option String := none
  tokenType : String := "Bearer"
deriving DecidableEq, Repr

/-- The `createdAt` chosen by `saveConnectorToken`:
`existing ? existing.created_at : now`, where a `null` existing entry is
falsy. -/
def priorCreatedAt (now : Int) (data : List (String × Option JEntry)) (subject : String) :
    Option Int :=
  match lookupKey subject data with
  | some (some existing) => existing.created_at
  | _ => some now

/-- The record object assigned to `data.tokens[connectorToken]` by
`saveConnectorToken` (`src/server/store.js` line 290): both tokens
encrypted, metadata normalised with `|| null`, `created_at` preserved from
the existing post-migration record, `updated_at` set to `now`. -/
def savedEntry (encF : String → Envelope) (now : Int)
    (data : List (String × Option JEntry)) (connectorToken : String)
    (td : TokenData) : JEntry :=
  { access_token := some (JVal.jenv (encF td.accessToken))
    refresh_token := some (JVal.jenv (encF td.refreshToken))
    expires_at := orNullNum td.expiresAt
    refresh_expires_at := orNullNum td.refreshExpiresAt
    scopes := orNullStr td.scopes
    created_at := priorCreatedAt now data connectorToken
    updated_at := some now
    open_id := orNullStr td.openId }

/-- `FileTokenStore.saveConnectorToken` (`src/server/store.js` line 281) as
the transformation it applies to the persisted `tokens` map (lock
acquisition and the atomic write are modelled separately): migrate if
needed, build the encrypted record preserving `created_at`, then prune. -/
def saveConnectorToken (encF : String → Envelope) (pruneAfterDays now : Int)
    (tokens : List (String × Option JEntry)) (connectorToken : String)
    (td : TokenData) : List (String × Option JEntry) :=
  let data := postMigration encF now tokens
  pruneTokens pruneAfterDays now
    (setKey connectorToken (some (savedEntry encF now data connectorToken td)) data)

/-- `FileTokenStore.getConnectorToken` (`src/server/store.js` line 305):
migration (with write-back) then decryption of both tokens; the first
component is the record handed to the caller (`null` when the entry is
absent or either token fails to decrypt or decrypts to an empty string),
the second is the persisted map after the call. -/
def getConnectorToken (A : AEAD) (key : List Nat) (encF : String → Envelope) (now : Int)
    (tokens : List (String × Option JEntry)) (connectorToken : String) :
    Option TokenRec × List (String × Option JEntry) :=
  let data := postMigration encF now tokens
  match lookupKey connectorToken data with
  | none => (none, data)
  | some none => (none, data)
  | some (some entry) =>
    let accessToken := decryptValue A entry.access_token key
    let refreshToken := decryptValue A entry.refresh_token key
    if strTruthy accessToken && strTruthy refreshToken then
      (some { accessToken := accessToken.getD ""
              refreshToken := refreshToken.getD ""
              expiresAt := entry.expires_at
              refreshExpiresAt := entry.refresh_expires_at
              scopes := entry.scopes
              createdAt := entry.created_at
              updatedAt := entry.updated_at
              openId := orNullStr entry.open_id }, data)
    else (none, data)

/-! ### Token resolution (`src/server/index.js`) -/

/-- The token payload of a successful provider refresh response
(`refreshResult.data.data || refreshResult.data` already resolved). -/
structure ProviderTokenResponse where
  access_token : String
  refresh_token : String
  expires_in : Option Int := none
  refresh_expires_in : Option Int := none
  open_id : Option String := none
  scope : Option String := none
  token_type : Option String := none
deriving DecidableEq, Repr

/-- `buildTokenRecord` (`src/server/index.js` line 281):
`Number(x || 0)` on the relative expiries, `|| null` on the metadata,
`|| 'Bearer'` on the token type. -/
def buildTokenRecord (now : Int) (resp : ProviderTokenResponse) : TokenData :=
  { accessToken := resp.access_token
    refreshToken := resp.refresh_token
    expiresAt := some (now + (if numTruthy resp.expires_in then resp.expires_in.getD 0 else 0) * 1000)
    refreshExpiresAt :=
      some (now + (if numTruthy resp.refresh_expires_in then resp.refresh_expires_in.getD 0 else 0) * 1000)
    openId := orNullStr resp.open_id
    scopes := orNullStr resp.scope
    tokenType := (strOr resp.token_type (some "Bearer")).getD "Bearer" }

/-- The value returned by `getAccessTokenForSubject`. -/
inductive TokenResolution where
  /-- `{ accessToken }` -/
  | accessTok (accessToken : String)
  /-- `{ error: 'invalid_subject', status: 401 }` -/
  | invalidSubject
  /-- `{ error: 'refresh_token_expired', status: 401 }` -/
  | refreshTokenExpired
  /-- `{ error: 'token_refresh_failed', status: 401, details }` -/
  | tokenRefreshFailed
deriving DecidableEq, Repr

/-- The observable outcome of one `getAccessTokenForSubject` call: the
returned value, whether the provider refresh endpoint was invoked, and the
record passed to `saveConnectorToken` (if any). -/
structure ResolutionOutcome where
  result : TokenResolution
  providerCalled : Bool
  saved : Option TokenData
deriving DecidableEq, Repr

/-- `getAccessTokenForSubject` (`src/server/index.js` line 293).  `stored`
is the record read from the credential store; `refresh` models
`refreshAccessToken`, returning `none` for a non-`ok` provider response
and otherwise the resolved token payload. -/
def getAccessTokenForSubject (now : Int) (stored : Option TokenRec)
    (refresh : String → Option ProviderTokenResponse) : ResolutionOutcome :=
  match stored with
  | none => { result := .invalidSubject, providerCalled := false, saved := none }
  | some tokenData =>
    if isAccessTokenValid now tokenData then
      { result := .accessTok tokenData.accessToken, providerCalled := false, saved := none }
    else if isRefreshTokenValid now tokenData = false then
      { result := .refreshTokenExpired, providerCalled := false, saved := none }
    else
      match refresh tokenData.refreshToken with
      | none => { result := .tokenRefreshFailed, providerCalled := true, saved := none }
      | some resp =>
        let updated := buildTokenRecord now resp
        { result := .accessTok updated.accessToken, providerCalled := true,
          saved := some updated }

/-- Claim C2 exactly as stated: the complete case analysis of
`getAccessTokenForSubject`, whose refresh branch unconditionally persists
the refreshed record and returns the new access token. -/
def ClaimC2Statement : Prop :=
  ∀ (now : Int) (stored : Option TokenRec) (refresh : String → Option ProviderTokenResponse),
    (stored = none →
      (getAccessTokenForSubject now stored refresh).result = .invalidSubject) ∧
    (∀ td, stored = some td → isAccessTokenValid now td = true →
      (getAccessTokenForSubject now stored refresh).result = .accessTok td.accessToken ∧
      (getAccessTokenForSubject now stored refresh).providerCalled = false) ∧
    (∀ td, stored = some td → isAccessTokenValid now td = false →
      isRefreshTokenValid now td = true →
      (getAccessTokenForSubject now stored refresh).providerCalled = true ∧
      ∃ resp, refresh td.refreshToken = some resp ∧
        (getAccessTokenForSubject now stored refresh).saved = some (buildTokenRecord now resp) ∧
        (getAccessTokenForSubject now stored refresh).result =
          .accessTok (buildTokenRecord now resp).accessToken) ∧
    (∀ td, stored = some td → isAccessTokenValid now td = false →
      isRefreshTokenValid now td = false →
      (getAccessTokenForSubject now stored refresh).result = .refreshTokenExpired)

/-! ### Cross-process lock (`FileTokenStore.withLock`) -/

/-- `LOCK_RETRY_DELAY_MS` (`src/server/store.js` line 58). -/
def LOCK_RETRY_DELAY_MS : Nat := 50

/-- `LOCK_TIMEOUT_MS` (`src/server/store.js` line 59). -/
def LOCK_TIMEOUT_MS : Nat := 5000

/-- `FileTokenStore.tryClearStaleLock` (`src/server/store.js` line 186),
over an abstract lock state (`none` when no lock file exists, `some pid`
when the lock file names `pid`).  Returns whether a stale lock was cleared
together with the lock state afterwards: a live holder is left alone; a
dead holder's file is unlinked; when the file is already gone the unlink
itself fails and `false` is returned. -/
def tryClearStaleLock (alive : Nat → Bool) (lock : Option Nat) : Bool × Option Nat :=
  match lock with
  | none => (false, none)
  | some pid => if alive pid then (false, some pid) else (true, none)

/-- Outcome of the lock-acquisition loop. -/
inductive AcquireResult where
  /-- the exclusive lock file was created after `elapsedMs` of waiting -/
  | acquired (elapsedMs : Nat)
  /-- `throw new Error('Token store lock timeout.')` -/
  | lockTimeout (elapsedMs : Nat)
  /-- artefact of the bounded unrolling; never reached with enough fuel -/
  | fuelExhausted
deriving DecidableEq, Repr

/-- The acquisition loop of `FileTokenStore.withLock` (`src/server/store.js`
line 147): try to create the lock file exclusively (`wx`); on `EEXIST`
clear a stale holder and retry immediately, otherwise fail once more than
`LOCK_TIMEOUT_MS` has elapsed since the start, else sleep
`LOCK_RETRY_DELAY_MS` and retry.  The contending holder is modelled as
static (`alive` does not change while waiting); `fuel` bounds the
unrolling, and `LOCK_TIMEOUT_MS / LOCK_RETRY_DELAY_MS + 2` iterations
always suffice. -/
def acquireLoop (alive : Nat → Bool) (lock : Option Nat) (elapsed : Nat) : Nat → AcquireResult
  | 0 => .fuelExhausted
  | fuel + 1 =>
    match lock with
    | none => .acquired elapsed
    | some pid =>
      let cleared := tryClearStaleLock alive (some pid)
      if cleared.1 then acquireLoop alive cleared.2 elapsed fuel
      else if LOCK_TIMEOUT_MS < elapsed then .lockTimeout elapsed
      else acquireLoop alive (some pid) (elapsed + LOCK_RETRY_DELAY_MS) fuel

/-- Result of `withLock`: either the protected function's value or the
lock-timeout error. -/
inductive LockOutcome (α : Type) where
  | ok (value : α)
  | lockTimeoutError
deriving DecidableEq, Repr

/-- `FileTokenStore.withLock(fn)` (`src/server/store.js` line 147): run the
acquisition loop from `elapsed = 0`; the protected function runs exactly
when the lock was acquired, and a timeout propagates as the lock-timeout
error without running it. -/
def withLock {α : Type} (alive : Nat → Bool) (lock : Option Nat) (fuel : Nat)
    (fn : Unit → α) : LockOutcome α :=
  match acquireLoop alive lock 0 fuel with
  | .acquired _ => .ok (fn ())
  | _ => .lockTimeoutError

/-! ### Atomic persistence (`writeFileAtomic`) -/

/-- A filesystem path: the persisted store file, or the temporary file
`<target>.<pid>.<timestamp>.tmp` created next to it by `writeFileAtomic`. -/
inductive FPath where
  | target (dir : List String) (file : String)
  | tmp (dir : List String) (file : String) (pid ts : Nat)
deriving DecidableEq, Repr

/-- Directory component of a path. -/
def FPath.dirOf : FPath → List String
  | .target dir _ => dir
  | .tmp dir _ _ _ => dir

/-- Rendered path string ("/"-separated). -/
def FPath.render : FPath → String
  | .target dir file => String.intercalate "/" dir ++ "/" ++ file
  | .tmp dir file pid ts =>
      String.intercalate "/" dir ++ "/" ++ file ++ "." ++ toString pid ++ "." ++
        toString ts ++ ".tmp"

/-- A filesystem operation issued by `writeFileAtomic`. -/
inductive FSOp where
  /-- `fs.promises.mkdir(dir, { recursive: true })`; `mode` records the
  explicitly requested permission bits, `none` when the call relies on the
  platform default -/
  | mkdirRecursive (dir : List String) (mode : Option Nat)
  /-- `fs.promises.open(path, 'w', mode)` -/
  | openWrite (p : FPath) (mode : Option Nat)
  /-- `handle.writeFile(contents, 'utf8')` -/
  | writeAll (contents : String)
  /-- `handle.sync()` -/
  | fsyncFile
  /-- `handle.close()` -/
  | closeFile
  /-- `fs.promises.rename(src, dst)` -/
  | renameFile (src dst : FPath)
deriving DecidableEq, Repr

/-- `writeFileAtomic(filePath, contents)` (`src/server/store.js` line 120)
as the sequence of filesystem operations of its non-throwing path, with
`pid = process.pid` and `ts = Date.now()`. -/
def writeFileAtomic (dir : List String) (file : String) (pid ts : Nat)
    (contents : String) : List FSOp :=
  [ .mkdirRecursive dir none,
    .openWrite (.tmp dir file pid ts) (some 0o600),
    .writeAll contents,
    .fsyncFile,
    .closeFile,
    .renameFile (.tmp dir file pid ts) (.target dir file) ]

/-- Whether an operation is a rename. -/
def FSOp.isRename : FSOp → Bool
  | .renameFile _ _ => true
  | _ => false

/-- Whether an operation is a durability flush. -/
def FSOp.isFsync : FSOp → Bool
  | .fsyncFile => true
  | _ => false

/-- Operations that create or mutate the file at path `p`. -/
def FSOp.touches (p : FPath) : FSOp → Bool
  | .openWrite q _ => q = p
  | .renameFile _ dst => dst = p
  | _ => false

/-- Claim C5 exactly as stated: the atomic-write properties together with
the store file being created non-world-readable and the containing
directory being created with an explicitly restrictive mode (no group or
world permission bits). -/
def ClaimC5Statement : Prop :=
  ∀ (dir : List String) (file : String) (pid ts : Nat) (contents : String),
    ((FPath.tmp dir file pid ts).dirOf = (FPath.target dir file).dirOf) ∧
    (((writeFileAtomic dir file pid ts contents).takeWhile
        fun op => !op.isRename).any FSOp.isFsync = true) ∧
    ((writeFileAtomic dir file pid ts contents).filter
        (FSOp.touches (FPath.target dir file)) =
      [FSOp.renameFile (FPath.tmp dir file pid ts) (FPath.target dir file)]) ∧
    (∃ m, FSOp.openWrite (FPath.tmp dir file pid ts) (some m) ∈
        writeFileAtomic dir file pid ts contents ∧ m % 8 = 0) ∧
    (∃ d m, FSOp.mkdirRecursive d (some m) ∈ writeFileAtomic dir file pid ts contents ∧
      m % 8 = 0 ∧ m / 8 % 8 = 0)

/-! ## Theorems -/

/-- Deleting a key removes every binding of it. -/
theorem lookupKey_eraseKey {β : Type} (key : String) (l : List (String × β)) :
    lookupKey key (eraseKey key l) = none := by
  induction l with
  | nil => rfl
  | cons p rest ih =>
    by_cases h : p.1 = key
    · simpa [eraseKey, List.filter_cons, h] using ih
    · simpa [eraseKey, List.filter_cons, h, lookupKey] using ih

/-- C1: for every string `s` and key `k`, `decryptValue (encryptValue s k) k`
returns `s` (given that the underlying AEAD primitive round-trips), and
`decryptValue` is total, returning `null` on every failure: a missing
envelope, a non-object envelope, and a payload whose tag fails to verify. -/
theorem decrypt_encrypt_roundtrip_and_null_on_failure (A : AEAD) (key iv : List Nat)
    (s : String)
    (hA : A.dec key iv (A.enc key iv s).2 (A.enc key iv s).1 = some s) :
    decryptValue A (some (JVal.jenv (encryptValue A iv s key))) key = some s ∧
    decryptValue A none key = none ∧
    (∀ t, decryptValue A (some (JVal.jstr t)) key = none) ∧
    (∀ e, A.dec key e.iv e.tag e.data = none →
      decryptValue A (some (JVal.jenv e)) key = none) := by
  refine ⟨?_, rfl, fun t => rfl, fun e he => ?_⟩
  · simp [decryptValue, encryptValue, hA]
  · simp [decryptValue, he]

/-- Witness for C1 on the concrete checksum instance: a round trip
succeeds, and decrypting a tampered envelope (wrong tag) yields `null`. -/
theorem decrypt_encrypt_roundtrip_witness :
    decryptValue toyAEAD (some (JVal.jenv (encryptValue toyAEAD [1, 2] "hello" [3]))) [3] =
      some "hello" ∧
    decryptValue toyAEAD (some (JVal.jenv ⟨[1, 2], [0], "hello"⟩)) [3] = none := by
  have h := decrypt_encrypt_roundtrip_and_null_on_failure toyAEAD [3] [1, 2] "hello" (by decide)
  exact ⟨h.1, h.2.2.2 ⟨[1, 2], [0], "hello"⟩ (by decide)⟩

/-- C3: a key consumed from a `StateStore` can never be consumed again —
the second of two consecutive `consume` calls always returns `null` — and
consuming an expired-but-present entry returns `null` while also deleting
the entry. -/
theorem consume_single_use {α : Type} (now now' : Int) (store : List (String × SEntry α))
    (state : String) :
    (StateStore.consume now' (StateStore.consume now store state).2 state).1 = none ∧
    (∀ e, lookupKey state store = some e → e.expiresAt ≤ now →
      (StateStore.consume now store state).1 = none ∧
      lookupKey state (StateStore.consume now store state).2 = none) := by
  have h2 : lookupKey state (StateStore.consume now store state).2 = none := by
    cases hl : lookupKey state store with
    | none => simp [StateStore.consume, hl]
    | some entry =>
      by_cases hexp : entry.expiresAt ≤ now <;>
        simp [StateStore.consume, hl, hexp, lookupKey_eraseKey]
  refine ⟨?_, fun e hl hexp => ⟨?_, ?_⟩⟩
  · revert h2
    generalize (StateStore.consume now store state).2 = X
    intro h2
    simp [StateStore.consume, h2]
  · simp [StateStore.consume, hl, hexp]
  · simp [StateStore.consume, hl, hexp, lookupKey_eraseKey]

/-- Witness for C3: consuming the same key twice yields `null` the second
time, and consuming an entry that is present but expired yields `null`
and leaves no entry behind. -/
theorem consume_single_use_witness :
    (StateStore.consume 20 (StateStore.consume 10 [("s", (⟨0, 5⟩ : SEntry Int))] "s").2 "s").1 =
      none ∧
    (StateStore.consume 10 [("s", (⟨0, 5⟩ : SEntry Int))] "s").1 = none ∧
    lookupKey "s" (StateStore.consume 10 [("s", (⟨0, 5⟩ : SEntry Int))] "s").2 = none := by
  have h := consume_single_use 10 20 [("s", (⟨0, 5⟩ : SEntry Int))] "s"
  exact ⟨h.1, (h.2 ⟨0, 5⟩ (by decide) (by decide)).1, (h.2 ⟨0, 5⟩ (by decide) (by decide)).2⟩

/-- C7: for a record with a numeric expiry, `isAccessTokenValid` is false
exactly when `now ≥ expiresAt - buffer` and true at every instant strictly
before `expiresAt - buffer`; `isRefreshTokenValid` applies the same
buffered check to `refreshExpiresAt`. -/
theorem tokenValidity_buffered (now e : Int) (r r' : TokenRec) (hnow : 0 ≤ now)
    (he : r.expiresAt = some e) (he' : r'.refreshExpiresAt = some e) :
    (isAccessTokenValid now r = false ↔ e - TOKEN_REFRESH_BUFFER_MS ≤ now) ∧
    (isAccessTokenValid now r = true ↔ now < e - TOKEN_REFRESH_BUFFER_MS) ∧
    (isRefreshTokenValid now r' = false ↔ e - TOKEN_REFRESH_BUFFER_MS ≤ now) ∧
    (isRefreshTokenValid now r' = true ↔ now < e - TOKEN_REFRESH_BUFFER_MS) := by
  refine ⟨?_, ?_, ?_, ?_⟩ <;>
  · simp only [isAccessTokenValid, isRefreshTokenValid, he, he', TOKEN_REFRESH_BUFFER_MS]
    by_cases he0 : e = 0
    · subst he0
      simp
      try omega
    · simp [he0]
      try omega

/-- Witness for C7: at `now = 0` a token expiring at `400000` (more than
the five-minute buffer away) is still valid under both checks. -/
theorem tokenValidity_buffered_witness :
    isAccessTokenValid 0 ⟨"a", "r", some 400000, none, none, none, none, none⟩ = true ∧
    isRefreshTokenValid 0 ⟨"a", "r", none, some 400000, none, none, none, none⟩ = true := by
  have h := tokenValidity_buffered 0 400000
    ⟨"a", "r", some 400000, none, none, none, none, none⟩
    ⟨"a", "r", none, some 400000, none, none, none, none⟩ (by norm_num) rfl rfl
  exact ⟨h.2.1.mpr (by norm_num [TOKEN_REFRESH_BUFFER_MS]),
    h.2.2.2.mpr (by norm_num [TOKEN_REFRESH_BUFFER_MS])⟩

/-- C2 (counterexample): the claim's case analysis is incomplete.  With a
stored record whose access token is invalid and whose refresh token is
valid, but a provider that rejects the refresh call, the code returns
`token_refresh_failed` and persists nothing, while the claim demands that
this case persist the updated record and return a new access token. -/
theorem getAccessTokenForSubject_claim_false : ¬ ClaimC2Statement := by
  intro h
  obtain ⟨-, -, h3, -⟩ :=
    h 0 (some ⟨"a", "r", none, some 1000000, none, none, none, none⟩) (fun _ => none)
  obtain ⟨-, resp, hresp, -⟩ := h3 _ rfl (by decide) (by decide)
  exact Option.noConfusion hresp

/-- C2 (amended): `getAccessTokenForSubject` returns exactly: no stored
record → `invalid_subject`; stored access token still valid (buffered
check) → that token with no provider call; access token invalid and
refresh token invalid → `refresh_token_expired`; access token invalid and
refresh token valid → the provider refresh endpoint is called, and on a
successful response the rebuilt record is persisted and its access token
returned, while on a rejected response `token_refresh_failed` is returned
with nothing persisted. -/
theorem getAccessTokenForSubject_cases (now : Int) (stored : Option TokenRec)
    (refresh : String → Option ProviderTokenResponse) :
    (stored = none →
      getAccessTokenForSubject now stored refresh = ⟨.invalidSubject, false, none⟩) ∧
    (∀ td, stored = some td → isAccessTokenValid now td = true →
      getAccessTokenForSubject now stored refresh =
        ⟨.accessTok td.accessToken, false, none⟩) ∧
    (∀ td, stored = some td → isAccessTokenValid now td = false →
      isRefreshTokenValid now td = false →
      getAccessTokenForSubject now stored refresh = ⟨.refreshTokenExpired, false, none⟩) ∧
    (∀ td, stored = some td → isAccessTokenValid now td = false →
      isRefreshTokenValid now td = true →
      (∀ resp, refresh td.refreshToken = some resp →
        getAccessTokenForSubject now stored refresh =
          ⟨.accessTok (buildTokenRecord now resp).accessToken, true,
            some (buildTokenRecord now resp)⟩) ∧
      (refresh td.refreshToken = none →
        getAccessTokenForSubject now stored refresh = ⟨.tokenRefreshFailed, true, none⟩)) := by
  refine ⟨?_, ?_, ?_, ?_⟩
  · rintro rfl; rfl
  · rintro td rfl hv
    simp [getAccessTokenForSubject, hv]
  · rintro td rfl hv hr
    simp [getAccessTokenForSubject, hv, hr]
  · rintro td rfl hv hr
    refine ⟨fun resp hresp => ?_, fun hresp => ?_⟩ <;>
      simp [getAccessTokenForSubject, hv, hr, hresp]

/-- Witness for C2 (amended): a concrete resolution where the stored
access token is stale, the refresh token is valid and the provider
accepts — the rebuilt record is saved and its access token returned. -/
theorem getAccessTokenForSubject_cases_witness :
    getAccessTokenForSubject 0
        (some ⟨"a", "r", none, some 1000000, none, none, none, none⟩)
        (fun _ => some ⟨"na", "nr", some 3600, some 86400, none, none, none⟩) =
      ⟨.accessTok "na", true,
        some (buildTokenRecord 0 ⟨"na", "nr", some 3600, some 86400, none, none, none⟩)⟩ := by
  have h := getAccessTokenForSubject_cases 0
    (some ⟨"a", "r", none, some 1000000, none, none, none, none⟩)
    (fun _ => some ⟨"na", "nr", some 3600, some 86400, none, none, none⟩)
  exact (h.2.2.2 _ rfl (by decide) (by decide)).1
    ⟨"na", "nr", some 3600, some 86400, none, none, none⟩ rfl

/-- Membership characterization of `pruneTokens`: an entry survives the
prune exactly when it was present, is not `null`, and the conjunction of
the two truthy staleness checks is false. -/
theorem mem_pruneTokens (d now : Int) (l : List (String × Option JEntry))
    (x : String × Option JEntry) :
    x ∈ pruneTokens d now l ↔ x ∈ l ∧ ∃ e, x.2 = some e ∧
      (truthyLtB e.refresh_expires_at now &&
        truthyLtB e.updated_at (now - d * 24 * 60 * 60 * 1000)) = false := by
  simp only [pruneTokens, List.mem_filterMap]
  constructor
  · rintro ⟨⟨tk, pe⟩, hp, hfp⟩
    cases pe with
    | none => simp at hfp
    | some e =>
      dsimp only at hfp
      by_cases hc : (truthyLtB e.refresh_expires_at now &&
          truthyLtB e.updated_at (now - d * 24 * 60 * 60 * 1000)) = true
      · rw [if_pos hc] at hfp
        exact absurd hfp (by simp)
      · rw [if_neg hc] at hfp
        obtain rfl := Option.some.inj hfp
        exact ⟨hp, e, rfl, by simpa using hc⟩
  · rintro ⟨hx, e, he, hcond⟩
    refine ⟨x, hx, ?_⟩
    obtain ⟨tk, pe⟩ := x
    dsimp only at he
    subst he
    dsimp only
    rw [if_neg (by simp [hcond])]

/-- C6: pruning removes a present record (with positive numeric expiry and
update stamps) exactly when both its refresh grant is expired
(`refresh_expires_at < now`) and its `updated_at` is older than the
retention cutoff; a record meeting only one condition is retained. -/
theorem pruneTokens_removes_iff_both (pruneAfterDays now : Int)
    (tokens : List (String × Option JEntry)) (token : String) (entry : JEntry)
    (r u : Int) (hr : entry.refresh_expires_at = some r) (hr0 : 0 < r)
    (hu : entry.updated_at = some u) (hu0 : 0 < u)
    (hmem : (token, some entry) ∈ tokens) :
    ((token, some entry) ∉ pruneTokens pruneAfterDays now tokens ↔
      (r < now ∧ u < now - pruneAfterDays * 24 * 60 * 60 * 1000)) := by
  have hcond : (truthyLtB entry.refresh_expires_at now &&
      truthyLtB entry.updated_at (now - pruneAfterDays * 24 * 60 * 60 * 1000)) = true ↔
      (r < now ∧ u < now - pruneAfterDays * 24 * 60 * 60 * 1000) := by
    simp only [truthyLtB, hr, hu, Bool.and_eq_true, decide_eq_true_eq, ne_eq]
    constructor
    · rintro ⟨⟨-, h1⟩, -, h2⟩
      exact ⟨h1, h2⟩
    · rintro ⟨h1, h2⟩
      exact ⟨⟨by omega, h1⟩, by omega, h2⟩
  rw [mem_pruneTokens]
  simp only [hmem, true_and]
  constructor
  · intro hne
    by_contra hcon
    exact hne ⟨entry, rfl, by
      rw [Bool.eq_false_iff]
      intro hcnd
      exact hcon (hcond.1 hcnd)⟩
  · rintro ⟨h1, h2⟩ ⟨e, he, hf⟩
    obtain rfl : entry = e := Option.some.inj he
    rw [hcond.2 ⟨h1, h2⟩] at hf
    exact Bool.noConfusion hf

/-- Witness for C6: a record whose refresh grant expired and whose
`updated_at` is past the retention cutoff is removed by pruning; the same
record with a fresh `updated_at` is retained. -/
theorem pruneTokens_removes_iff_both_witness :
    ((("t", some { refresh_expires_at := some 5, updated_at := some 5 }) ∉
        pruneTokens 0 10 [("t", some { refresh_expires_at := some 5, updated_at := some 5 })]) ∧
      ¬ (("t", some { refresh_expires_at := some 5, updated_at := some 20 }) ∉
        pruneTokens 0 10 [("t", some { refresh_expires_at := some 5, updated_at := some 20 })])) := by
  constructor
  · exact (pruneTokens_removes_iff_both 0 10 _ "t" _ 5 5 rfl (by norm_num) rfl (by norm_num)
      (by simp)).mpr ⟨by norm_num, by norm_num⟩
  · intro hno
    have := (pruneTokens_removes_iff_both 0 10 _ "t" _ 5 20 rfl (by norm_num) rfl (by norm_num)
      (by simp)).mp hno
    omega

/-- A lock file naming a dead holder is cleared and the lock acquired on
the immediate retry, with no additional waiting. -/
theorem acquireLoop_dead (alive : Nat → Bool) (pid : Nat) (h : alive pid = false)
    (elapsed fuel : Nat) :
    acquireLoop alive (some pid) elapsed (fuel + 1 + 1) = .acquired elapsed := by
  have h1 : tryClearStaleLock alive (some pid) = (true, none) := by
    simp [tryClearStaleLock, h]
  simp [acquireLoop, h1]

/-- One waiting iteration against a live holder: no clearing, no timeout
yet, sleep `LOCK_RETRY_DELAY_MS` and retry. -/
theorem acquireLoop_live_step (alive : Nat → Bool) (pid : Nat) (h : alive pid = true)
    (elapsed fuel : Nat) (hle : elapsed ≤ LOCK_TIMEOUT_MS) :
    acquireLoop alive (some pid) elapsed (fuel + 1) =
      acquireLoop alive (some pid) (elapsed + LOCK_RETRY_DELAY_MS) fuel := by
  have h1 : tryClearStaleLock alive (some pid) = (false, some pid) := by
    simp [tryClearStaleLock, h]
  simp [acquireLoop, h1, Nat.not_lt.mpr hle]

/-- Against a live holder the loop counts up to the timeout bound and then
fails: from any `elapsed` that is `LOCK_RETRY_DELAY_MS * n` short of
`5050`, it returns the lock-timeout error at `5050` elapsed milliseconds. -/
theorem acquireLoop_live_timeout (alive : Nat → Bool) (pid : Nat) (h : alive pid = true) :
    ∀ (n elapsed fuel : Nat), elapsed + LOCK_RETRY_DELAY_MS * n = 5050 → n < fuel →
      acquireLoop alive (some pid) elapsed fuel = .lockTimeout 5050 := by
  intro n
  induction n with
  | zero =>
    intro elapsed fuel he hf
    obtain ⟨f, rfl⟩ : ∃ f, fuel = f + 1 := ⟨fuel - 1, by omega⟩
    have he' : elapsed = 5050 := by
      simpa [LOCK_RETRY_DELAY_MS] using he
    subst he'
    have h1 : tryClearStaleLock alive (some pid) = (false, some pid) := by
      simp [tryClearStaleLock, h]
    simp [acquireLoop, h1, LOCK_TIMEOUT_MS]
  | succ k ih =>
    intro elapsed fuel he hf
    obtain ⟨f, rfl⟩ : ∃ f, fuel = f + 1 := ⟨fuel - 1, by omega⟩
    have hle : elapsed ≤ LOCK_TIMEOUT_MS := by
      simp only [LOCK_RETRY_DELAY_MS] at he
      simp only [LOCK_TIMEOUT_MS]
      omega
    rw [acquireLoop_live_step alive pid h elapsed f hle]
    refine ih (elapsed + LOCK_RETRY_DELAY_MS) f ?_ (by omega)
    simp only [LOCK_RETRY_DELAY_MS] at he ⊢
    omega

/-- C4: with enough fuel to cover the full waiting window, a lock held by
a dead process is reclaimed and acquisition succeeds immediately instead
of timing out; a lock held by a live, non-releasing process makes
`withLock` fail with the lock-timeout error once the bounded 5-second
window is exhausted (at 5050 ms elapsed); and the protected function runs
only when the lock was acquired. -/
theorem withLock_stale_reclaim_and_timeout {α : Type} (alive : Nat → Bool) (pid : Nat)
    (fn : Unit → α) (fuel : Nat) (hfuel : 102 ≤ fuel) :
    (alive pid = false →
      acquireLoop alive (some pid) 0 fuel = .acquired 0 ∧
      withLock alive (some pid) fuel fn = .ok (fn ())) ∧
    (alive pid = true →
      acquireLoop alive (some pid) 0 fuel = .lockTimeout 5050 ∧
      withLock alive (some pid) fuel fn = .lockTimeoutError) ∧
    (∀ (lock : Option Nat) (f : Nat) (v : α), withLock alive lock f fn = .ok v →
      v = fn () ∧ ∃ t, acquireLoop alive lock 0 f = .acquired t) := by
  refine ⟨fun hdead => ?_, fun hlive => ?_, fun lock f v hok => ?_⟩
  · obtain ⟨g, rfl⟩ : ∃ g, fuel = g + 1 + 1 := ⟨fuel - 2, by omega⟩
    have ha := acquireLoop_dead alive pid hdead 0 g
    exact ⟨ha, by simp [withLock, ha]⟩
  · have ha := acquireLoop_live_timeout alive pid hlive 101 0 fuel (by norm_num [LOCK_RETRY_DELAY_MS])
      (by omega)
    exact ⟨ha, by simp [withLock, ha]⟩
  · unfold withLock at hok
    cases hres : acquireLoop alive lock 0 f with
    | acquired t =>
      rw [hres] at hok
      exact ⟨(LockOutcome.ok.inj hok).symm, t, rfl⟩
    | lockTimeout t =>
      rw [hres] at hok
      exact LockOutcome.noConfusion hok
    | fuelExhausted =>
      rw [hres] at hok
      exact LockOutcome.noConfusion hok

/-- Witness for C4: a lock naming dead pid 7 is reclaimed and the
protected function runs; the same lock with pid 7 alive ends in the
lock-timeout error. -/
theorem withLock_stale_reclaim_witness :
    withLock (fun _ => false) (some 7) 102 (fun _ => (42 : Nat)) = .ok 42 ∧
    withLock (fun _ => true) (some 7) 102 (fun _ => (42 : Nat)) = .lockTimeoutError :=
  ⟨((withLock_stale_reclaim_and_timeout (fun _ => false) 7 (fun _ => 42) 102 (by norm_num)).1
      rfl).2,
    ((withLock_stale_reclaim_and_timeout (fun _ => true) 7 (fun _ => 42) 102 (by norm_num)).2.1
      rfl).2⟩

/-- C5 (counterexample): the claim requires the containing directory to be
created with an explicitly restrictive mode, but `writeFileAtomic` calls
`mkdir` with no mode at all (platform default), so no trace of it contains
a `mkdir` carrying explicit permission bits. -/
theorem writeFileAtomic_claim_false : ¬ ClaimC5Statement := by
  intro h
  obtain ⟨-, -, -, -, d, m, hmem, -, -⟩ := h [] "f" 1 2 "c"
  simp [writeFileAtomic] at hmem

/-- C5 (amended): `writeFileAtomic` writes the snapshot to a temporary
file in the same directory as the target whose name is unique per
(process, timestamp), flushes it with fsync before the rename, renames as
the only operation mutating the target path, and opens the file with mode
`0o600` (non-world-readable); the containing directory is created, but
with the platform-default mode rather than an explicitly restrictive one. -/
theorem writeFileAtomic_atomic_spec (dir : List String) (file : String) (pid ts : Nat)
    (contents : String) :
    ((FPath.tmp dir file pid ts).dirOf = (FPath.target dir file).dirOf) ∧
    (((writeFileAtomic dir file pid ts contents).takeWhile
        fun op => !op.isRename).any FSOp.isFsync = true) ∧
    ((writeFileAtomic dir file pid ts contents).filter
        (FSOp.touches (FPath.target dir file)) =
      [FSOp.renameFile (FPath.tmp dir file pid ts) (FPath.target dir file)]) ∧
    (FSOp.openWrite (FPath.tmp dir file pid ts) (some 384) ∈
        writeFileAtomic dir file pid ts contents ∧ 384 % 8 = 0) ∧
    (FSOp.mkdirRecursive dir none ∈ writeFileAtomic dir file pid ts contents) ∧
    (∀ pid' ts', pid ≠ pid' ∨ ts ≠ ts' →
      FPath.tmp dir file pid ts ≠ FPath.tmp dir file pid' ts') ∧
    ((FPath.tmp dir file pid ts).render ≠ (FPath.target dir file).render) := by
  refine ⟨rfl, rfl, ?_, ⟨by simp [writeFileAtomic], by norm_num⟩, by simp [writeFileAtomic],
    fun pid' ts' hne heq => ?_, fun heq => ?_⟩
  · simp [writeFileAtomic, FSOp.touches, List.filter_cons]
  · rw [FPath.tmp.injEq] at heq
    rcases hne with h | h
    · exact h heq.2.2.1
    · exact h heq.2.2.2
  · have hlen := congrArg String.length heq
    have h1 : String.length "." = 1 := rfl
    have h2 : String.length ".tmp" = 4 := rfl
    simp [FPath.render, String.length_append, h1, h2] at hlen
    omega

/-- Witness for C5 (amended): on a concrete write, the rename is the only
operation touching the target, and changing the timestamp changes the
temporary file's identity. -/
theorem writeFileAtomic_atomic_spec_witness :
    (writeFileAtomic ["d"] "tokens.json" 1 2 "snapshot").filter
        (FSOp.touches (FPath.target ["d"] "tokens.json")) =
      [FSOp.renameFile (FPath.tmp ["d"] "tokens.json" 1 2)
        (FPath.target ["d"] "tokens.json")] ∧
    FPath.tmp ["d"] "tokens.json" 1 2 ≠ FPath.tmp ["d"] "tokens.json" 1 3 := by
  have h := writeFileAtomic_atomic_spec ["d"] "tokens.json" 1 2 "snapshot"
  exact ⟨h.2.2.1, h.2.2.2.2.2.1 1 3 (Or.inr (by norm_num))⟩

/-- C9: `getConnectorToken` returns `null` both when no (post-migration)
record exists for the subject and when either stored token fails to
decrypt — never a partial record and never an error. -/
theorem getConnectorToken_null_on_decrypt_failure (A : AEAD) (key : List Nat)
    (encF : String → Envelope) (now : Int) (tokens : List (String × Option JEntry))
    (subject : String) :
    ((lookupKey subject (postMigration encF now tokens) = none ∨
        lookupKey subject (postMigration encF now tokens) = some none) →
      (getConnectorToken A key encF now tokens subject).1 = none) ∧
    (∀ entry, lookupKey subject (postMigration encF now tokens) = some (some entry) →
      (decryptValue A entry.access_token key = none ∨
        decryptValue A entry.refresh_token key = none) →
      (getConnectorToken A key encF now tokens subject).1 = none) := by
  constructor
  · rintro (h | h) <;> simp [getConnectorToken, h]
  · rintro entry h (hd | hd) <;> simp [getConnectorToken, h, hd, strTruthy]

/-- Witness for C9: a stored entry whose access-token field is a plain
string (so decryption yields `null`) makes `getConnectorToken` return
`null`. -/
theorem getConnectorToken_null_on_decrypt_failure_witness :
    (getConnectorToken toyAEAD [] (fun s => ⟨[], [], s⟩) 0
      [("s", some { access_token := some (JVal.jstr "x") })] "s").1 = none := by
  have h := getConnectorToken_null_on_decrypt_failure toyAEAD [] (fun s => ⟨[], [], s⟩) 0
    [("s", some { access_token := some (JVal.jstr "x") })] "s"
  exact h.2 { access_token := some (JVal.jstr "x") } (by decide) (Or.inl rfl)

/-- `migrateEntry` never reassigns a record to a different key. -/
theorem migrateEntry_key (encF : String → Envelope) (now : Int)
    (p q : String × Option JEntry) (h : migrateEntry encF now p = some q) :
    q.1 = p.1 := by
  obtain ⟨tk, pe⟩ := p
  cases pe with
  | none => exact Option.noConfusion h
  | some e =>
    dsimp only [migrateEntry] at h
    split at h
    · obtain rfl := Option.some.inj h
      rfl
    · exact Option.noConfusion h

/-- In a map with no duplicate keys, a key determines its value. -/
theorem key_unique {β : Type} {l : List (String × β)} (hnd : List.Nodup (l.map Prod.fst))
    {a : String} {b c : β} (hb : (a, b) ∈ l) (hc : (a, c) ∈ l) : b = c := by
  induction l with
  | nil => exact absurd hb (List.not_mem_nil _)
  | cons p rest ih =>
    obtain ⟨hhead, hrest⟩ := List.nodup_cons.1 hnd
    rcases List.mem_cons.1 hb with hb1 | hb1 <;> rcases List.mem_cons.1 hc with hc1 | hc1
    · exact (Prod.ext_iff.1 (hb1.trans hc1.symm)).2
    · exact absurd (List.mem_map_of_mem Prod.fst hc1)
        (by rw [← hb1] at hhead; exact fun hin => hhead hin)
    · exact absurd (List.mem_map_of_mem Prod.fst hb1)
        (by rw [← hc1] at hhead; exact fun hin => hhead hin)
    · exact ih hrest hb1 hc1

/-- C10: the legacy-plaintext migration drops `null` records and every
record lacking either token (they are not written in any form when keys
are unique), and every record it does write carries both tokens as
ciphertext envelopes. -/
theorem migrateData_preserves_encrypted_invariant (encF : String → Envelope) (now : Int)
    (tokens : List (String × Option JEntry)) :
    (∀ token, migrateEntry encF now (token, none) = none) ∧
    (∀ token entry,
      (jvalTruthy (jvalOr entry.accessToken entry.access_token) = false ∨
        jvalTruthy (jvalOr entry.refreshToken entry.refresh_token) = false) →
      migrateEntry encF now (token, some entry) = none) ∧
    (∀ token me, (token, me) ∈ migrateData encF now tokens →
      ∃ e, me = some e ∧
        (∃ a, e.access_token = some (JVal.jenv a)) ∧
        (∃ r, e.refresh_token = some (JVal.jenv r))) ∧
    (∀ token entry, List.Nodup (tokens.map Prod.fst) → (token, some entry) ∈ tokens →
      (jvalTruthy (jvalOr entry.accessToken entry.access_token) = false ∨
        jvalTruthy (jvalOr entry.refreshToken entry.refresh_token) = false) →
      ∀ me, (token, me) ∉ migrateData encF now tokens) := by
  refine ⟨fun token => rfl, fun token entry h => ?_, fun token me hm => ?_,
    fun token entry hnd hmem hlack me hin => ?_⟩
  · rcases h with h | h <;> simp [migrateEntry, h]
  · obtain ⟨⟨tk, pe⟩, hp, hfp⟩ := List.mem_filterMap.1 hm
    cases pe with
    | none => exact Option.noConfusion hfp
    | some e =>
      dsimp only [migrateEntry] at hfp
      split at hfp
      · obtain ⟨-, rfl⟩ := Prod.mk.injEq _ _ _ _ ▸ Option.some.inj hfp
        exact ⟨_, rfl, ⟨_, rfl⟩, ⟨_, rfl⟩⟩
      · exact Option.noConfusion hfp
  · obtain ⟨⟨tk, pe⟩, hp, hfp⟩ := List.mem_filterMap.1 hin
    have hkey : token = tk := migrateEntry_key encF now (tk, pe) (token, me) hfp
    subst hkey
    have : pe = some entry := key_unique hnd hp hmem
    subst this
    rcases hlack with h | h <;> simp [migrateEntry, h] at hfp

/-- Witness for C10: a legacy record with only an access token is dropped
by migration, while a complete legacy record is rewritten with both
tokens as envelopes. -/
theorem migrateData_preserves_encrypted_invariant_witness :
    migrateEntry (fun s => ⟨[0], [1], s⟩) 5
      ("t", some { accessToken := some (JVal.jstr "A") }) = none ∧
    (∃ e, (some { access_token := some (JVal.jenv ⟨[0], [1], "A"⟩)
                  refresh_token := some (JVal.jenv ⟨[0], [1], "R"⟩)
                  expires_at := some 5
                  refresh_expires_at := some 5
                  created_at := some 5
                  updated_at := some 5 } : Option JEntry) = some e ∧
      (∃ a, e.access_token = some (JVal.jenv a)) ∧
      (∃ r, e.refresh_token = some (JVal.jenv r))) := by
  have h := migrateData_preserves_encrypted_invariant (fun s => ⟨[0], [1], s⟩) 5
    [("t", some { accessToken := some (JVal.jstr "A"), refreshToken := some (JVal.jstr "R") })]
  exact ⟨h.2.1 "t" { accessToken := some (JVal.jstr "A") } (Or.inr rfl),
    h.2.2.1 "t" _ (by decide)⟩

/-- A just-touched record (`updated_at = now`) can never satisfy the
staleness half of the prune condition. -/
theorem fresh_not_tooOld (d now : Int) (hd : 0 ≤ d) :
    truthyLtB (some now) (now - d * 24 * 60 * 60 * 1000) = false := by
  have h2 : decide (now < now - d * 24 * 60 * 60 * 1000) = false := by
    simp only [decide_eq_false_iff_not]
    omega
  simp [truthyLtB, h2]

/-- Surviving the prune implies prior membership. -/
theorem mem_of_pruneTokens {d now : Int} {l : List (String × Option JEntry)}
    {x : String × Option JEntry} (h : x ∈ pruneTokens d now l) : x ∈ l :=
  ((mem_pruneTokens d now l x).1 h).1

/-- After a save, the subject's binding is exactly the freshly built
record: the entry written by `saveConnectorToken` survives the
opportunistic prune because its `updated_at` is `now`. -/
theorem lookupKey_saveConnectorToken (encF : String → Envelope) (d now : Int)
    (tokens : List (String × Option JEntry)) (subject : String) (td : TokenData)
    (hd : 0 ≤ d) :
    lookupKey subject (saveConnectorToken encF d now tokens subject td) =
      some (some (savedEntry encF now (postMigration encF now tokens) subject td)) := by
  have hupd : (savedEntry encF now (postMigration encF now tokens) subject td).updated_at =
      some now := rfl
  have hcond : (truthyLtB
        (savedEntry encF now (postMigration encF now tokens) subject td).refresh_expires_at now &&
      truthyLtB (savedEntry encF now (postMigration encF now tokens) subject td).updated_at
        (now - d * 24 * 60 * 60 * 1000)) = false := by
    rw [hupd, fresh_not_tooOld d now hd, Bool.and_false]
  simp only [saveConnectorToken, setKey, pruneTokens, List.filterMap_cons]
  rw [hcond]
  simp [lookupKey]

/-- A save never introduces a legacy-shaped record: the freshly written
entry has no camelCase token fields, and every other surviving entry was
already present. -/
theorem needsMigration_saveConnectorToken (encF : String → Envelope) (d now : Int)
    (tokens : List (String × Option JEntry)) (subject : String) (td : TokenData)
    (hmig : needsMigration tokens = false) :
    needsMigration (saveConnectorToken encF d now tokens subject td) = false := by
  have hpm : postMigration encF now tokens = tokens := by
    simp [postMigration, hmig]
  simp only [needsMigration, List.any_eq_false] at hmig ⊢
  intro p hp
  have hp0 : p ∈ pruneTokens d now (setKey subject
      (some (savedEntry encF now (postMigration encF now tokens) subject td))
      (postMigration encF now tokens)) := by
    simpa [saveConnectorToken] using hp
  have hp1 : p ∈ setKey subject
      (some (savedEntry encF now (postMigration encF now tokens) subject td))
      (postMigration encF now tokens) := mem_of_pruneTokens hp0
  rw [hpm] at hp1
  rcases List.mem_cons.1 hp1 with h | h
  · subst h
    simp [savedEntry, jvalTruthy]
  · simp only [eraseKey] at h
    exact hmig p (List.mem_filter.1 h).1

/-- C8: the record stored by `saveConnectorToken` carries `updated_at =
now` on every save, and its `created_at` is the current time on a first
save and the existing record's `created_at` on every later save — in
particular it is unchanged across two consecutive saves for the same
subject. -/
theorem saveConnectorToken_createdAt_immutable (encF : String → Envelope) (d now now' : Int)
    (tokens : List (String × Option JEntry)) (subject : String) (td td' : TokenData)
    (hd : 0 ≤ d) (hmig : needsMigration tokens = false) :
    (lookupKey subject (saveConnectorToken encF d now tokens subject td) =
        some (some (savedEntry encF now tokens subject td)) ∧
      (savedEntry encF now tokens subject td).updated_at = some now ∧
      (savedEntry encF now tokens subject td).created_at = priorCreatedAt now tokens subject) ∧
    (lookupKey subject (saveConnectorToken encF d now'
          (saveConnectorToken encF d now tokens subject td) subject td') =
        some (some (savedEntry encF now'
          (saveConnectorToken encF d now tokens subject td) subject td')) ∧
      (savedEntry encF now'
          (saveConnectorToken encF d now tokens subject td) subject td').updated_at =
        some now' ∧
      (savedEntry encF now'
          (saveConnectorToken encF d now tokens subject td) subject td').created_at =
        priorCreatedAt now tokens subject) := by
  have hpm : postMigration encF now tokens = tokens := by
    simp [postMigration, hmig]
  have h1 := lookupKey_saveConnectorToken encF d now tokens subject td hd
  rw [hpm] at h1
  have hmig1 := needsMigration_saveConnectorToken encF d now tokens subject td hmig
  have hpm1 : postMigration encF now' (saveConnectorToken encF d now tokens subject td) =
      saveConnectorToken encF d now tokens subject td := by
    simp [postMigration, hmig1]
  have h2 := lookupKey_saveConnectorToken encF d now'
    (saveConnectorToken encF d now tokens subject td) subject td' hd
  rw [hpm1] at h2
  refine ⟨⟨h1, rfl, ?_⟩, h2, rfl, ?_⟩
  · show priorCreatedAt now tokens subject = priorCreatedAt now tokens subject
    rfl
  · show priorCreatedAt now' (saveConnectorToken encF d now tokens subject td) subject =
      priorCreatedAt now tokens subject
    simp only [priorCreatedAt, h1]
    show priorCreatedAt now tokens subject = priorCreatedAt now tokens subject
    rfl

/-- Witness for C8: two consecutive saves for subject "s" on an empty
store at times 100 then 200 leave `created_at = 100` (set by the first
save, preserved by the second). -/
theorem saveConnectorToken_createdAt_immutable_witness :
    lookupKey "s" (saveConnectorToken (fun s => ⟨[], [], s⟩) 30 200
        (saveConnectorToken (fun s => ⟨[], [], s⟩) 30 100 [] "s"
          ⟨"a", "r", none, none, none, none, "Bearer"⟩) "s"
        ⟨"a2", "r2", none, none, none, none, "Bearer"⟩) =
      some (some (savedEntry (fun s => ⟨[], [], s⟩) 200
        (saveConnectorToken (fun s => ⟨[], [], s⟩) 30 100 [] "s"
          ⟨"a", "r", none, none, none, none, "Bearer"⟩) "s"
        ⟨"a2", "r2", none, none, none, none, "Bearer"⟩)) ∧
    (savedEntry (fun s => ⟨[], [], s⟩) 200
        (saveConnectorToken (fun s => ⟨[], [], s⟩) 30 100 [] "s"
          ⟨"a", "r", none, none, none, none, "Bearer"⟩) "s"
        ⟨"a2", "r2", none, none, none, none, "Bearer"⟩).created_at = some 100 := by
  have h := saveConnectorToken_createdAt_immutable (fun s => ⟨[], [], s⟩) 30 100 200 [] "s"
    ⟨"a", "r", none, none, none, none, "Bearer"⟩
    ⟨"a2", "r2", none, none, none, none, "Bearer"⟩ (by norm_num) rfl
  exact ⟨h.2.1, h.2.2.2⟩

end Store

